import Mathlib

/-!
Shallow embedding of the identity-event reconciliation workflow of the
`nextjs-fullstack-boilerplate` repository.

The embedded code:
* `api/netlify/functions/clerk-webhook.ts` — the Netlify webhook `handler`
  and its five event handlers (`handleUserCreated`, `handleUserUpdated`,
  `handleUserDeleted`, `handleSessionCreated`, `handleSessionRemoved`)
  plus `logUserActivity`;
* `api/repositories/UserRepository.ts` / `BaseRepository.ts` — the
  repository operations the handlers call (`findByClerkId`, `findByEmail`,
  `updateByClerkId`, `updateById`, `create`), modelled as operations on an
  explicit in-memory document list (`findOneAndUpdate` updates the first
  matching document and returns the post-update document, `new: true`);
* `api/lib/validations/user.ts` — the zod `userSchema` used by the user
  self-service `PUT` route of `api/app/api/user/[id]/route.ts`.

Modelling conventions:
* JavaScript nullable/optional strings are modelled as `String` with `""`
  standing for null/undefined/empty — faithful to the source because every
  test the source performs on them is a truthiness test (`x || y`), which
  identifies `""`, `null` and `undefined`.
* The external svix signature check (`wh.verify`) is an oracle: the request
  carries `verified : Option WebhookEvent`, `none` meaning verification threw.
* The external Clerk `privateMetadata` sync in `handleUserCreated`
  (lines 231-267) touches only the identity provider's store and swallows all
  of its own errors, so it has no effect on the embedded database state.
* The activity-log persistence call may fail; its outcome is the `logOk`
  oracle parameter. `Date` values are `Nat` timestamps passed as `now`.
* Fallible code runs in `Except String`; a thrown error is `.error msg`.
-/

namespace Boilerplate

/-- Notification preference flags of the default preference block. -/
structure NotificationPrefs where
  email : Bool
  push : Bool
  marketing : Bool
deriving Repr, DecidableEq

/-- Preference block stored on a User document. -/
structure Preferences where
  theme : String
  language : String
  notifications : NotificationPrefs
deriving Repr, DecidableEq

/-- Usage-statistics counters stored on a User document. -/
structure Stats where
  totalPortfolios : Nat
  totalViews : Nat
  totalProjects : Nat
deriving Repr, DecidableEq

/-- A User document as manipulated by the webhook handlers: `mongoId`
models the document `_id`, the remaining fields are the ones the handlers
read and write. -/
structure User where
  mongoId : Nat
  clerkId : String
  email : String
  firstName : String
  lastName : String
  username : Option String
  avatar : Option String
  plan : String
  role : String
  status : String
  preferences : Preferences
  stats : Stats
  updatedAt : Nat
deriving Repr, DecidableEq

/-- An ActivityLog document as written by `logUserActivity`: the fixed
category/severity/resource tags, the synthetic description, and the
call-site metadata (flattened to string pairs). -/
structure ActivityLogEntry where
  userId : Nat
  action : String
  category : String
  severity : String
  resource : String
  description : String
  metadata : List (String × String)
  ipAddress : String
  userAgent : String
  timestamp : Nat
deriving Repr, DecidableEq

/-- The document-store state: the User collection, the ActivityLog
collection, and the next fresh `_id` for a created User. -/
structure DBState where
  users : List User
  logs : List ActivityLogEntry
  nextId : Nat
deriving Repr, DecidableEq

/-- `findOneAndUpdate`-style update: apply `f` to the first element
satisfying `p`, leave the rest unchanged. -/
def updateFirst {α : Type} (p : α → Bool) (f : α → α) : List α → List α
  | [] => []
  | x :: rest => if p x then f x :: rest else x :: updateFirst p f rest

/-- `userRepository.findByClerkId`: `findOne({ clerkId })`. -/
def findByClerkId (clerkId : String) (st : DBState) : Option User :=
  st.users.find? (fun u => u.clerkId == clerkId)

/-- `userRepository.findByEmail`: `findOne({ email })`. -/
def findByEmail (email : String) (st : DBState) : Option User :=
  st.users.find? (fun u => u.email == email)

/-- `userRepository.updateByClerkId`: `findOneAndUpdate({ clerkId }, data,
{ new: true })` — updates the first matching document and returns the
post-update document, or `none` when no document matches. -/
def updateByClerkId (clerkId : String) (f : User → User) (st : DBState) :
    Option User × DBState :=
  match st.users.find? (fun u => u.clerkId == clerkId) with
  | none => (none, st)
  | some u =>
    (some (f u),
     { st with users := updateFirst (fun v => v.clerkId == clerkId) f st.users })

/-- `userRepository.updateById`: `findByIdAndUpdate(id, data, { new: true })`. -/
def updateById (mongoId : Nat) (f : User → User) (st : DBState) :
    Option User × DBState :=
  match st.users.find? (fun u => u.mongoId == mongoId) with
  | none => (none, st)
  | some u =>
    (some (f u),
     { st with users := updateFirst (fun v => v.mongoId == mongoId) f st.users })

/-- `userRepository.create`: `new this.model(data); document.save()` —
appends the new document to the collection and consumes a fresh `_id`. -/
def createUser (u : User) (st : DBState) : DBState :=
  { st with users := st.users ++ [u], nextId := st.nextId + 1 }

/-- One entry of the `email_addresses` array of an identity event payload. -/
structure EmailAddress where
  id : String
  email_address : String
deriving Repr, DecidableEq

/-- The (untyped in the source) `evt.data` payload: the union of the fields
the five handlers destructure. Absent fields default to `""` / `[]` / `0`. -/
structure EventData where
  id : String := ""
  email_addresses : List EmailAddress := []
  first_name : String := ""
  last_name : String := ""
  username : String := ""
  image_url : String := ""
  primary_email_address_id : String := ""
  updated_at : Nat := 0
  user_id : String := ""
deriving Repr, DecidableEq

/-- Primary-email resolution shared by the creation and update handlers:
`email_addresses.find((email) => email.id === userData.primary_email_address_id)`. -/
def resolvePrimaryEmail (d : EventData) : Option EmailAddress :=
  d.email_addresses.find? (fun e => e.id == d.primary_email_address_id)

/-- The log entry built by `logUserActivity` from its arguments. -/
def mkLogEntry (userId : Nat) (action : String)
    (metadata : List (String × String)) (now : Nat) : ActivityLogEntry :=
  { userId := userId
    action := action
    category := "auth"
    severity := "medium"
    resource := "user"
    description := "User " ++ action ++ " via Clerk webhook."
    metadata := metadata
    ipAddress := "webhook"
    userAgent := "clerk-webhook"
    timestamp := now }

/-- `activityLogRepository.create`: the underlying persistence call, which
may fail; `logOk` is the oracle for its outcome. -/
def activityLogCreate (logOk : Bool) (e : ActivityLogEntry) (st : DBState) :
    Except String DBState :=
  if logOk then .ok { st with logs := st.logs ++ [e] }
  else .error "activity log write failed"

/-- `logUserActivity`: wraps the persistence call in try/catch and never
rethrows ("Don't rethrow to avoid blocking the webhook flow"). -/
def logUserActivity (logOk : Bool) (userId : Nat) (action : String)
    (metadata : List (String × String)) (now : Nat) (st : DBState) :
    Except String DBState :=
  match activityLogCreate logOk (mkLogEntry userId action metadata now) st with
  | .ok st1 => .ok st1
  | .error _ => .ok st

/-- The `{ clerkId, email, source }` metadata block the user handlers pass
to `logUserActivity`. -/
def sourceMeta (clerkId email : String) : List (String × String) :=
  [("clerkId", clerkId), ("email", email), ("source", "clerk_webhook")]

/-- The reactivation update document `{ status: "active", updatedAt: new Date() }`. -/
def reactivateUpdate (now : Nat) (u : User) : User :=
  { u with status := "active", updatedAt := now }

/-- The soft-delete update document `{ status: "inactive", updatedAt: new Date() }`. -/
def softDeleteUpdate (now : Nat) (u : User) : User :=
  { u with status := "inactive", updatedAt := now }

/-- The re-link update document `{ clerkId, status: "active", updatedAt: new Date() }`. -/
def relinkUpdate (clerkId : String) (now : Nat) (u : User) : User :=
  { u with clerkId := clerkId, status := "active", updatedAt := now }

/-- The new-User document built by the creation handler: event fields with
truthiness defaults, plan `free`, role `user`, status `active`, the default
preference block and zeroed stats. -/
def newUserOf (d : EventData) (primaryEmail : EmailAddress) (now : Nat)
    (mongoId : Nat) : User :=
  { mongoId := mongoId
    clerkId := d.id
    email := primaryEmail.email_address
    firstName := if d.first_name == "" then "" else d.first_name
    lastName := if d.last_name == "" then "" else d.last_name
    username := if d.username == "" then none else some d.username
    avatar := if d.image_url == "" then none else some d.image_url
    plan := "free"
    role := "user"
    status := "active"
    preferences :=
      { theme := "light", language := "en"
        notifications := { email := true, push := true, marketing := false } }
    stats := { totalPortfolios := 0, totalViews := 0, totalProjects := 0 }
    updatedAt := now }

/-- `handleUserCreated`: resolve the primary email (throw if none), then
look up by clerkId (reactivate an inactive user, no-op otherwise), then by
email (re-link), else create a new User with the default plan/role/status/
preferences/stats and log `user.created`. The Clerk privateMetadata sync of
the source affects only the external identity provider and swallows its own
errors, so it does not appear in the database state. -/
def handleUserCreated (logOk : Bool) (now : Nat) (d : EventData) (st : DBState) :
    Except String DBState :=
  match resolvePrimaryEmail d with
  | none => .error "No primary email found"
  | some primaryEmail =>
    match findByClerkId d.id st with
    | some existingUser =>
      if existingUser.status == "inactive" then
        let r := updateByClerkId d.id (reactivateUpdate now) st
        logUserActivity logOk existingUser.mongoId "user.reactivated"
          (sourceMeta d.id existingUser.email) now r.2
      else
        .ok st
    | none =>
      match findByEmail primaryEmail.email_address st with
      | some existingByEmail =>
        let r := updateById existingByEmail.mongoId (relinkUpdate d.id now) st
        match logUserActivity logOk existingByEmail.mongoId "user.relinked"
            (sourceMeta d.id existingByEmail.email) now r.2 with
        | .ok st2 => .ok st2
        | .error _ => .ok r.2
      | none =>
        let newUser : User := newUserOf d primaryEmail now st.nextId
        let st1 := createUser newUser st
        logUserActivity logOk newUser.mongoId "user.created"
          (sourceMeta d.id newUser.email) now st1

/-- Rendering of the booleans of the `changes` metadata map of `user.updated`. -/
def boolStr (b : Bool) : String := if b then "true" else "false"

/-- The update document of the update handler: email is overwritten with
the resolved primary email unconditionally; first/last name, username and
avatar fall back (`||`) to the existing user's values when the event value
is falsy; `updatedAt` comes from the event's `updated_at`. -/
def updateFieldsUpdate (d : EventData) (primaryEmail : EmailAddress)
    (existingUser : User) (u : User) : User :=
  { u with
    email := primaryEmail.email_address
    firstName := if d.first_name == "" then existingUser.firstName else d.first_name
    lastName := if d.last_name == "" then existingUser.lastName else d.last_name
    username := if d.username == "" then existingUser.username else some d.username
    avatar := if d.image_url == "" then existingUser.avatar else some d.image_url
    updatedAt := d.updated_at }

/-- `handleUserUpdated`: resolve the primary email (throw if none); if no
User matches the clerkId, fall through to `handleUserCreated`; otherwise
overwrite email unconditionally and the four other fields with truthiness
fallback to the existing values, set `updatedAt` from the event timestamp,
and log `user.updated` with a per-field change map. -/
def handleUserUpdated (logOk : Bool) (now : Nat) (d : EventData) (st : DBState) :
    Except String DBState :=
  match resolvePrimaryEmail d with
  | none => .error "No primary email found"
  | some primaryEmail =>
    match findByClerkId d.id st with
    | none => handleUserCreated logOk now d st
    | some existingUser =>
      let r := updateByClerkId d.id (updateFieldsUpdate d primaryEmail existingUser) st
      match r.1 with
      | some updatedUser =>
        logUserActivity logOk updatedUser.mongoId "user.updated"
          [("clerkId", d.id), ("email", updatedUser.email),
           ("source", "clerk_webhook"),
           ("changes.firstName", boolStr (d.first_name != existingUser.firstName)),
           ("changes.lastName", boolStr (d.last_name != existingUser.lastName)),
           ("changes.username", boolStr (some d.username != existingUser.username)),
           ("changes.avatar", boolStr (some d.image_url != existingUser.avatar))]
          now r.2
      | none => .ok r.2

/-- `handleUserDeleted`: locate by clerkId; absent is a no-op; present is a
soft delete (`status := "inactive"`, bump `updatedAt`) plus a `user.deleted`
log entry. -/
def handleUserDeleted (logOk : Bool) (now : Nat) (d : EventData) (st : DBState) :
    Except String DBState :=
  match findByClerkId d.id st with
  | none => .ok st
  | some _ =>
    let r := updateByClerkId d.id (softDeleteUpdate now) st
    match r.1 with
    | some deletedUser =>
      logUserActivity logOk deletedUser.mongoId "user.deleted"
        (sourceMeta d.id deletedUser.email) now r.2
    | none => .ok r.2

/-- `handleSessionCreated`: locate the owning User by the event's `user_id`;
absent is a no-op; present writes a `session.created` log entry only. -/
def handleSessionCreated (logOk : Bool) (now : Nat) (d : EventData) (st : DBState) :
    Except String DBState :=
  match findByClerkId d.user_id st with
  | none => .ok st
  | some user =>
    logUserActivity logOk user.mongoId "session.created"
      [("sessionId", d.id), ("source", "clerk_webhook")] now st

/-- `handleSessionRemoved`: locate the owning User by the event's `user_id`;
absent is a no-op; present writes a `session.removed` log entry only. -/
def handleSessionRemoved (logOk : Bool) (now : Nat) (d : EventData) (st : DBState) :
    Except String DBState :=
  match findByClerkId d.user_id st with
  | none => .ok st
  | some user =>
    logUserActivity logOk user.mongoId "session.removed"
      [("sessionId", d.id), ("source", "clerk_webhook")] now st

/-- The decoded event envelope produced by a successful `wh.verify`. -/
structure WebhookEvent where
  type : String
  data : EventData
deriving Repr, DecidableEq

/-- An inbound Netlify request as the handler sees it: method, raw body,
the three svix headers, and the oracle outcome of signature verification
(`none` = `wh.verify` threw). -/
structure NetlifyRequest where
  httpMethod : String
  body : Option String
  svixId : Option String
  svixTimestamp : Option String
  svixSignature : Option String
  verified : Option WebhookEvent
deriving Repr, DecidableEq

/-- An HTTP response: status code and JSON body text. -/
structure HttpResponse where
  statusCode : Nat
  body : String
deriving Repr, DecidableEq

/-- JavaScript truthiness test `!x` on a possibly-absent string: absent and
`""` are both falsy. -/
def falsy (o : Option String) : Bool := o.getD "" == ""

/-- The `switch (eventType)` dispatch of the webhook handler; the default
branch only logs the unhandled type. -/
def routeEvent (logOk : Bool) (now : Nat) (evt : WebhookEvent) (st : DBState) :
    Except String DBState :=
  match evt.type with
  | "user.created" => handleUserCreated logOk now evt.data st
  | "user.updated" => handleUserUpdated logOk now evt.data st
  | "user.deleted" => handleUserDeleted logOk now evt.data st
  | "session.created" => handleSessionCreated logOk now evt.data st
  | "session.removed" => handleSessionRemoved logOk now evt.data st
  | _ => .ok st

/-- The Netlify webhook `handler`: method gate, payload presence gate, svix
header presence gate, signature verification, dispatch, and the
success/server-error response envelopes. -/
def handler (logOk : Bool) (now : Nat) (req : NetlifyRequest) (st : DBState) :
    HttpResponse × DBState :=
  if req.httpMethod != "POST" then
    ({ statusCode := 405, body := "\x7b\"error\":\"Method not allowed\"\x7d" }, st)
  else if falsy req.body then
    ({ statusCode := 400, body := "\x7b\"error\":\"No payload provided\"\x7d" }, st)
  else if falsy req.svixId || falsy req.svixTimestamp || falsy req.svixSignature then
    ({ statusCode := 400,
       body := "\x7b\"error\":\"Error occurred -- no svix headers\"\x7d" }, st)
  else
    match req.verified with
    | none => ({ statusCode := 400, body := "\x7b\"error\":\"Error occurred\"\x7d" }, st)
    | some evt =>
      match routeEvent logOk now evt st with
      | .ok st1 =>
        ({ statusCode := 200,
           body := "\x7b\"message\":\"Webhook processed successfully\"\x7d" }, st1)
      | .error msg =>
        ({ statusCode := 500,
           body := "\x7b\"error\":\"Internal server error\",\"details\":\"" ++ msg ++ "\"\x7d" },
         st)

/-- A User document as the mongoose `UserSchema` of the models file declares
it (clerkId unique, optional email/name, role/plan/status enums with
defaults): the document shape the self-service `PUT` route updates. -/
structure MongoUser where
  clerkId : String
  email : Option String
  name : Option String
  role : String
  plan : String
  status : String
  updatedAt : Nat
deriving Repr, DecidableEq

/-- Parsed output of the zod `userSchema` of `lib/validations/user.ts`:
all five declared fields optional. -/
structure UserUpdateInput where
  email : Option String := none
  name : Option String := none
  role : Option String := none
  plan : Option String := none
  status : Option String := none
deriving Repr, DecidableEq

/-- Field lookup in a decoded JSON object body (string-valued fields). -/
def lookupField (body : List (String × String)) (k : String) : Option String :=
  (body.find? (fun kv => kv.1 == k)).map (fun kv => kv.2)

/-- `userSchema.safeParse` of `lib/validations/user.ts`: a plain
`z.object` without `.strict()`, so zod's default object mode applies —
keys outside the five declared ones are STRIPPED, not rejected; each
declared key, when present, is validated (email format via the
library-external `emailOk` predicate, name length 2-50, the three enums). -/
def userSchemaSafeParse (emailOk : String → Bool)
    (body : List (String × String)) : Except (List String) UserUpdateInput :=
  let email := lookupField body "email"
  let name := lookupField body "name"
  let role := lookupField body "role"
  let plan := lookupField body "plan"
  let status := lookupField body "status"
  let errs : List String :=
    (match email with
     | some v => if emailOk v then [] else ["Invalid email address"]
     | none => []) ++
    (match name with
     | some v =>
       if v.length < 2 then ["Name too short"]
       else if v.length > 50 then ["Name too long"]
       else []
     | none => []) ++
    (match role with
     | some v => if v == "admin" || v == "user" then [] else ["Invalid role"]
     | none => []) ++
    (match plan with
     | some v => if v == "free" || v == "premium" then [] else ["Invalid plan"]
     | none => []) ++
    (match status with
     | some v =>
       if v == "active" || v == "banned" || v == "suspended" then []
       else ["Invalid status"]
     | none => [])
  if errs.isEmpty then
    .ok { email := email, name := name, role := role, plan := plan, status := status }
  else
    .error errs

/-- Application of a validated partial update by `findOneAndUpdate`: only
the fields present in the update document are overwritten. -/
def applyUserUpdate (data : UserUpdateInput) (u : MongoUser) : MongoUser :=
  { u with
    email := match data.email with | some v => some v | none => u.email
    name := match data.name with | some v => some v | none => u.name
    role := match data.role with | some v => v | none => u.role
    plan := match data.plan with | some v => v | none => u.plan
    status := match data.status with | some v => v | none => u.status }

/-- The `PUT` handler of `app/api/user/[id]/route.ts`: 401 without an
authenticated user, 400 on zod validation failure, then
`updateByClerkId(userId, data)` — 404 when no document matches, else 200
with the updated user. -/
def putUser (authUserId : Option String) (emailOk : String → Bool)
    (body : List (String × String)) (users : List MongoUser) :
    HttpResponse × List MongoUser :=
  match authUserId with
  | none => ({ statusCode := 401, body := "\x7b\"error\":\"Unauthorized\"\x7d" }, users)
  | some userId =>
    match userSchemaSafeParse emailOk body with
    | .error _ =>
      ({ statusCode := 400, body := "\x7b\"message\":\"validation error\"\x7d" }, users)
    | .ok data =>
      match users.find? (fun u => u.clerkId == userId) with
      | none =>
        ({ statusCode := 404, body := "\x7b\"error\":\"User not found\"\x7d" }, users)
      | some _ =>
        ({ statusCode := 200,
           body := "\x7b\"message\":\"User updated successfully\"\x7d" },
         updateFirst (fun u => u.clerkId == userId) (applyUserUpdate data) users)

/-- Closed form of a best-effort activity-log write: the log gains one
entry when the persistence call succeeds and nothing otherwise; the User
collection and id counter are untouched either way. -/
def appendLogIf (logOk : Bool) (userId : Nat) (action : String)
    (metadata : List (String × String)) (now : Nat) (st : DBState) : DBState :=
  { st with
    logs := st.logs ++ (if logOk then [mkLogEntry userId action metadata now] else []) }

/-- The metadata map written with a `user.updated` entry, including the
per-field boolean change map. -/
def updatedMeta (d : EventData) (primaryEmail : EmailAddress) (u : User) :
    List (String × String) :=
  [("clerkId", d.id), ("email", primaryEmail.email_address),
   ("source", "clerk_webhook"),
   ("changes.firstName", boolStr (d.first_name != u.firstName)),
   ("changes.lastName", boolStr (d.last_name != u.lastName)),
   ("changes.username", boolStr (some d.username != u.username)),
   ("changes.avatar", boolStr (some d.image_url != u.avatar))]

/-- The uniqueness invariant the spec claims for the User collection:
no two documents share an external identity id, no two share an email. -/
def usersUnique (st : DBState) : Prop :=
  (st.users.map User.clerkId).Nodup ∧ (st.users.map User.email).Nodup

instance usersUniqueDecidable (st : DBState) : Decidable (usersUnique st) := by
  unfold usersUnique
  infer_instance

/-- Modelled from the spec: the response-code table of the claim — 405 for a
method other than POST; 400 for a missing body, a missing signature header,
or failed verification, before any handler runs; 500 when the dispatched
handler of a verified request throws; otherwise 200. Missing covers the
empty string, which HTTP cannot distinguish from an absent header value
and which can never carry a valid signature. -/
def claimedStatus (logOk : Bool) (now : Nat) (req : NetlifyRequest) (st : DBState) :
    Nat :=
  if req.httpMethod ≠ "POST" then 405
  else if falsy req.body || falsy req.svixId || falsy req.svixTimestamp ||
          falsy req.svixSignature then 400
  else
    match req.verified with
    | none => 400
    | some evt =>
      match routeEvent logOk now evt st with
      | .ok _ => 200
      | .error _ => 500

/-! Concrete fixtures, drawn from the scenarios of the spec, used by the
witness and counterexample theorems below. -/

/-- The email entry `{ id: "e1", email_address: "a@x.com" }`. -/
def emailA : EmailAddress := ⟨"e1", "a@x.com"⟩

/-- The spec's first scenario creation event. -/
def createEventA : EventData :=
  { id := "idp_1", email_addresses := [emailA],
    primary_email_address_id := "e1", first_name := "A" }

/-- The spec's re-link scenario creation event: same email, new identity id. -/
def createEventB : EventData := { createEventA with id := "idp_2" }

/-- The spec's deletion event `{ id: "idp_1" }`. -/
def deleteEventA : EventData := { id := "idp_1" }

/-- An empty document store. -/
def emptyDB : DBState := { users := [], logs := [], nextId := 0 }

/-- The state after processing `createEventA` on the empty store. -/
def dbAfterCreateA : DBState :=
  match handleUserCreated true 1 createEventA emptyDB with
  | .ok s => s
  | .error _ => emptyDB

/-- The state after soft-deleting `idp_1` in `dbAfterCreateA`. -/
def dbAfterDeleteA : DBState :=
  match handleUserDeleted true 2 deleteEventA dbAfterCreateA with
  | .ok s => s
  | .error _ => dbAfterCreateA

/-- A stored active user with clerkId `c1` and email `a@x.com`. -/
def userC1 : User :=
  { mongoId := 0
    clerkId := "c1"
    email := "a@x.com"
    firstName := "John"
    lastName := ""
    username := none
    avatar := none
    plan := "free"
    role := "user"
    status := "active"
    preferences :=
      { theme := "light", language := "en"
        notifications := { email := true, push := true, marketing := false } }
    stats := { totalPortfolios := 0, totalViews := 0, totalProjects := 0 }
    updatedAt := 0 }

/-- A second stored active user with clerkId `c2` and email `b@x.com`. -/
def userC2 : User := { userC1 with mongoId := 1, clerkId := "c2", email := "b@x.com" }

/-- A store holding `userC1` and `userC2`. -/
def dbTwoUsers : DBState := { users := [userC1, userC2], logs := [], nextId := 2 }

/-- An update event for `c1` whose primary email is `userC2`'s email. -/
def dupEmailEvent : EventData :=
  { id := "c1", email_addresses := [⟨"e9", "b@x.com"⟩],
    primary_email_address_id := "e9" }

/-- The state after processing `dupEmailEvent` on `dbTwoUsers`. -/
def dbAfterDupEmail : DBState :=
  match handleUserUpdated true 5 dupEmailEvent dbTwoUsers with
  | .ok s => s
  | .error _ => dbTwoUsers

/-- An update event for `c1` whose resolved primary email address is the
empty string (and all other event fields empty). -/
def emptyEmailEvent : EventData :=
  { id := "c1", email_addresses := [⟨"e9", ""⟩],
    primary_email_address_id := "e9" }

/-- The state after processing `emptyEmailEvent` on `dbTwoUsers`. -/
def dbAfterEmptyEmail : DBState :=
  match handleUserUpdated true 5 emptyEmailEvent dbTwoUsers with
  | .ok s => s
  | .error _ => dbTwoUsers

/-- A store holding `userC1` with status `banned`. -/
def bannedDB : DBState :=
  { users := [{ userC1 with status := "banned" }], logs := [], nextId := 1 }

/-- A creation event replaying `c1`'s identity. -/
def replayC1Event : EventData :=
  { id := "c1", email_addresses := [emailA], primary_email_address_id := "e1" }

/-- The User document stored after processing `createEventA` on the empty
store: the value `newUserOf createEventA emailA 1 0` written out. -/
def userIdp1 : User :=
  { mongoId := 0
    clerkId := "idp_1"
    email := "a@x.com"
    firstName := "A"
    lastName := ""
    username := none
    avatar := none
    plan := "free"
    role := "user"
    status := "active"
    preferences :=
      { theme := "light", language := "en"
        notifications := { email := true, push := true, marketing := false } }
    stats := { totalPortfolios := 0, totalViews := 0, totalProjects := 0 }
    updatedAt := 1 }

/-- A well-formed signed POST request carrying the given verified event. -/
def postRequest (evt : WebhookEvent) : NetlifyRequest :=
  { httpMethod := "POST", body := some "payload", svixId := some "msg_1",
    svixTimestamp := some "1700000000", svixSignature := some "v1,sig",
    verified := some evt }

/-- A GET request to the webhook endpoint. -/
def methodGetRequest : NetlifyRequest :=
  { httpMethod := "GET", body := none, svixId := none, svixTimestamp := none,
    svixSignature := none, verified := none }

/-- The body the `PUT` route receives in the unknown-field scenario. -/
def hackerBody : List (String × String) := [("status", "active"), ("hacker", "x")]

/-- The stored mongoose-schema user the `PUT` route scenario updates. -/
def mongoUser1 : MongoUser :=
  { clerkId := "user_1", email := some "a@x.com", name := none,
    role := "user", plan := "free", status := "banned", updatedAt := 0 }

/-! Generic lemmas about `updateFirst` (the `findOneAndUpdate` model). -/

theorem updateFirst_length {α : Type} (p : α → Bool) (f : α → α) (l : List α) :
    (updateFirst p f l).length = l.length := by
  induction l with
  | nil => rfl
  | cons x rest ih => cases h : p x <;> simp [updateFirst, h, ih]

theorem map_updateFirst_congr {α β : Type} (g : α → β) (p : α → Bool) (f : α → α)
    (hgf : ∀ a, g (f a) = g a) (l : List α) :
    (updateFirst p f l).map g = l.map g := by
  induction l with
  | nil => rfl
  | cons x rest ih => cases h : p x <;> simp [updateFirst, h, ih, hgf]

theorem mem_updateFirst {α : Type} {p : α → Bool} {f : α → α} {l : List α} {y : α}
    (hy : y ∈ updateFirst p f l) : y ∈ l ∨ ∃ x, x ∈ l ∧ y = f x := by
  induction l with
  | nil => simp [updateFirst] at hy
  | cons x rest ih =>
    cases h : p x with
    | true =>
      simp only [updateFirst, h, if_pos] at hy
      rcases List.mem_cons.1 hy with h1 | h1
      · exact Or.inr ⟨x, List.mem_cons_self .., h1⟩
      · exact Or.inl (List.mem_cons_of_mem _ h1)
    | false =>
      simp only [updateFirst, h] at hy
      rcases List.mem_cons.1 hy with h1 | h1
      · exact Or.inl (h1 ▸ List.mem_cons_self ..)
      · rcases ih h1 with h2 | ⟨z, hz, hzf⟩
        · exact Or.inl (List.mem_cons_of_mem _ h2)
        · exact Or.inr ⟨z, List.mem_cons_of_mem _ hz, hzf⟩

theorem find?_updateFirst_map {α : Type} (p : α → Bool) (f : α → α) (l : List α)
    (hf : ∀ a, p a = true → p (f a) = true) :
    (updateFirst p f l).find? p = (l.find? p).map f := by
  induction l with
  | nil => rfl
  | cons x rest ih =>
    cases h : p x with
    | true => simp [updateFirst, h, List.find?_cons, hf x h]
    | false => simp [updateFirst, h, List.find?_cons, ih]

theorem find?_updateFirst_other {α : Type} (p q : α → Bool) (f : α → α)
    (l : List α) (x : α) (hx : l.find? p = some x)
    (hq : ∀ a ∈ l, q a = false) (hfx : q (f x) = true) :
    (updateFirst p f l).find? q = some (f x) := by
  induction l with
  | nil => simp at hx
  | cons a rest ih =>
    cases h : p a with
    | true =>
      have hxa : a = x := by simpa [List.find?_cons, h] using hx
      subst hxa
      simp [updateFirst, h, List.find?_cons, hfx]
    | false =>
      have hx1 : rest.find? p = some x := by simpa [List.find?_cons, h] using hx
      have hqa : q a = false := hq a (List.mem_cons_self ..)
      have hrec := ih hx1 (fun b hb => hq b (List.mem_cons_of_mem _ hb))
      simp [updateFirst, h, List.find?_cons, hqa, hrec]

theorem find?_append_fresh {α : Type} (q : α → Bool) (l : List α) (u : α)
    (hnone : l.find? q = none) (hu : q u = true) :
    (l ++ [u]).find? q = some u := by
  rw [List.find?_append, hnone]
  simp [List.find?_cons, hu]

theorem find?_eq_self_of_nodup {α β : Type} [DecidableEq β] (g : α → β)
    (l : List α) (w : α) (hw : w ∈ l) (hno : (l.map g).Nodup) :
    l.find? (fun a => g a == g w) = some w := by
  induction l with
  | nil => simp at hw
  | cons a rest ih =>
    rcases List.mem_cons.1 hw with h1 | h1
    · subst h1
      simp [List.find?_cons]
    · by_cases hga : g a = g w
      · exfalso
        have : g w ∈ rest.map g := List.mem_map_of_mem _ h1
        have : g a ∈ rest.map g := hga ▸ this
        exact (List.nodup_cons.1 hno).1 this
      · have : (g a == g w) = false := by simp [hga]
        simp [List.find?_cons, this, ih h1 (List.nodup_cons.1 hno).2]

theorem nodup_map_updateFirst_fresh {α β : Type} [DecidableEq β] (g : α → β)
    (p : α → Bool) (f : α → α) (c : β) (l : List α)
    (hno : (l.map g).Nodup) (hf : ∀ a, g (f a) = c)
    (hfresh : ∀ a ∈ l, g a ≠ c) :
    ((updateFirst p f l).map g).Nodup := by
  induction l with
  | nil => simp [updateFirst]
  | cons x rest ih =>
    have hx_notin : g x ∉ rest.map g := (List.nodup_cons.1 hno).1
    have hrest : (rest.map g).Nodup := (List.nodup_cons.1 hno).2
    cases h : p x with
    | true =>
      simp only [updateFirst, h, if_pos, List.map_cons, List.nodup_cons]
      constructor
      · rw [hf x]
        intro hc
        rcases List.mem_map.1 hc with ⟨z, hz, hgz⟩
        exact hfresh z (List.mem_cons_of_mem _ hz) hgz
      · exact hrest
    | false =>
      simp only [updateFirst, h, Bool.false_eq_true, if_false, List.map_cons,
        List.nodup_cons]
      constructor
      · intro hc
        rcases List.mem_map.1 hc with ⟨z, hz, hgz⟩
        rcases mem_updateFirst hz with h2 | ⟨z0, hz0, hz0f⟩
        · exact hx_notin (hgz ▸ List.mem_map_of_mem _ h2)
        · rw [hz0f, hf z0] at hgz
          exact hfresh x (List.mem_cons_self ..) hgz.symm
      · exact ih hrest (fun a ha => hfresh a (List.mem_cons_of_mem _ ha))

/-! Shape lemmas for the activity-log sink and the event handlers. -/

theorem logUserActivity_eq (logOk : Bool) (uid : Nat) (action : String)
    (meta : List (String × String)) (now : Nat) (st : DBState) :
    logUserActivity logOk uid action meta now st =
      .ok (appendLogIf logOk uid action meta now st) := by
  cases logOk <;> simp [logUserActivity, activityLogCreate, appendLogIf]

theorem appendLogIf_users (logOk : Bool) (uid : Nat) (action : String)
    (meta : List (String × String)) (now : Nat) (st : DBState) :
    (appendLogIf logOk uid action meta now st).users = st.users := rfl

theorem handleUserCreated_of_active {d : EventData} {st : DBState}
    {pe : EmailAddress} {u : User} (logOk : Bool) (now : Nat)
    (hpe : resolvePrimaryEmail d = some pe)
    (hu : findByClerkId d.id st = some u) (hs : ¬ u.status = "inactive") :
    handleUserCreated logOk now d st = .ok st := by
  have hb : (u.status == "inactive") = false := by simp [hs]
  simp [handleUserCreated, hpe, hu, hb]

theorem handleUserCreated_of_inactive {d : EventData} {st : DBState}
    {pe : EmailAddress} {u : User} (logOk : Bool) (now : Nat)
    (hpe : resolvePrimaryEmail d = some pe)
    (hu : findByClerkId d.id st = some u) (hs : u.status = "inactive") :
    handleUserCreated logOk now d st =
      .ok (appendLogIf logOk u.mongoId "user.reactivated" (sourceMeta d.id u.email) now
        { st with
          users := updateFirst (fun v => v.clerkId == d.id) (reactivateUpdate now) st.users }) := by
  have hraw : st.users.find? (fun v => v.clerkId == d.id) = some u := hu
  simp [handleUserCreated, hpe, hu, hs, updateByClerkId, hraw, logUserActivity_eq]

theorem handleUserCreated_of_relink {d : EventData} {st : DBState}
    {pe : EmailAddress} {w : User} (logOk : Bool) (now : Nat)
    (hpe : resolvePrimaryEmail d = some pe)
    (hnone : findByClerkId d.id st = none)
    (hw : findByEmail pe.email_address st = some w) :
    handleUserCreated logOk now d st =
      .ok (appendLogIf logOk w.mongoId "user.relinked" (sourceMeta d.id w.email) now
        { st with
          users := updateFirst (fun v => v.mongoId == w.mongoId) (relinkUpdate d.id now) st.users }) := by
  have hwmem : w ∈ st.users := List.mem_of_find?_eq_some hw
  have hsome : (st.users.find? (fun v => v.mongoId == w.mongoId)).isSome := by
    rw [List.find?_isSome]
    exact ⟨w, hwmem, by simp⟩
  rcases Option.isSome_iff_exists.1 hsome with ⟨x, hx⟩
  simp [handleUserCreated, hpe, hnone, hw, updateById, hx, logUserActivity_eq]

theorem handleUserCreated_of_create {d : EventData} {st : DBState}
    {pe : EmailAddress} (logOk : Bool) (now : Nat)
    (hpe : resolvePrimaryEmail d = some pe)
    (hnone : findByClerkId d.id st = none)
    (hmail : findByEmail pe.email_address st = none) :
    handleUserCreated logOk now d st =
      .ok (appendLogIf logOk st.nextId "user.created"
            (sourceMeta d.id pe.email_address) now
            (createUser (newUserOf d pe now st.nextId) st)) := by
  simp [handleUserCreated, hpe, hnone, hmail, logUserActivity_eq, newUserOf]

theorem handleUserDeleted_of_none {d : EventData} {st : DBState}
    (logOk : Bool) (now : Nat) (hnone : findByClerkId d.id st = none) :
    handleUserDeleted logOk now d st = .ok st := by
  simp [handleUserDeleted, hnone]

theorem handleUserDeleted_of_found {d : EventData} {st : DBState} {u : User}
    (logOk : Bool) (now : Nat) (hu : findByClerkId d.id st = some u) :
    handleUserDeleted logOk now d st =
      .ok (appendLogIf logOk u.mongoId "user.deleted" (sourceMeta d.id u.email) now
        { st with
          users := updateFirst (fun v => v.clerkId == d.id) (softDeleteUpdate now) st.users }) := by
  have hraw : st.users.find? (fun v => v.clerkId == d.id) = some u := hu
  simp [handleUserDeleted, hu, updateByClerkId, hraw, logUserActivity_eq,
    softDeleteUpdate]

theorem handleUserUpdated_of_none {d : EventData} {st : DBState}
    {pe : EmailAddress} (logOk : Bool) (now : Nat)
    (hpe : resolvePrimaryEmail d = some pe)
    (hnone : findByClerkId d.id st = none) :
    handleUserUpdated logOk now d st = handleUserCreated logOk now d st := by
  simp [handleUserUpdated, hpe, hnone]

theorem handleUserUpdated_of_found {d : EventData} {st : DBState}
    {pe : EmailAddress} {u : User} (logOk : Bool) (now : Nat)
    (hpe : resolvePrimaryEmail d = some pe)
    (hu : findByClerkId d.id st = some u) :
    handleUserUpdated logOk now d st =
      .ok (appendLogIf logOk u.mongoId "user.updated" (updatedMeta d pe u) now
        { st with
          users := updateFirst (fun v => v.clerkId == d.id)
            (updateFieldsUpdate d pe u) st.users }) := by
  have hraw : st.users.find? (fun v => v.clerkId == d.id) = some u := hu
  simp [handleUserUpdated, hpe, hu, updateByClerkId, hraw, logUserActivity_eq,
    updatedMeta, updateFieldsUpdate]

/-- C1: replaying a creation event is idempotent — whenever a creation
event has been processed successfully (which leaves the event's identity id
attached to an active User in every branch), processing the same event
again returns without error and returns the state unchanged: the User
collection is untouched and no additional activity-log entry is written,
so one successful creation plus any number of replays yield exactly the
one User and the one `user.created` log entry of the first run. -/
theorem creation_replay_idempotent (logOk logOk2 : Bool) (now now2 : Nat)
    (d : EventData) (st st1 : DBState)
    (h : handleUserCreated logOk now d st = .ok st1) :
    handleUserCreated logOk2 now2 d st1 = .ok st1 := by
  cases hpe : resolvePrimaryEmail d with
  | none => simp [handleUserCreated, hpe] at h
  | some pe =>
    cases hu : findByClerkId d.id st with
    | some u =>
      by_cases hs : u.status = "inactive"
      · rw [handleUserCreated_of_inactive logOk now hpe hu hs] at h
        obtain rfl := Except.ok.inj h
        have hfind : findByClerkId d.id
            (appendLogIf logOk u.mongoId "user.reactivated" (sourceMeta d.id u.email) now
              { st with
                users := updateFirst (fun v => v.clerkId == d.id) (reactivateUpdate now) st.users }) =
            some (reactivateUpdate now u) := by
          show (updateFirst (fun v => v.clerkId == d.id) (reactivateUpdate now)
              st.users).find? (fun v => v.clerkId == d.id) = _
          rw [find?_updateFirst_map (fun v => v.clerkId == d.id)
            (reactivateUpdate now) st.users (fun a ha => ha)]
          rw [show st.users.find? (fun v => v.clerkId == d.id) = some u from hu]
          rfl
        exact handleUserCreated_of_active logOk2 now2 hpe hfind
          (by simp [reactivateUpdate])
      · rw [handleUserCreated_of_active logOk now hpe hu hs] at h
        obtain rfl := Except.ok.inj h
        exact handleUserCreated_of_active logOk2 now2 hpe hu hs
    | none =>
      cases hw : findByEmail pe.email_address st with
      | some w =>
        rw [handleUserCreated_of_relink logOk now hpe hu hw] at h
        obtain rfl := Except.ok.inj h
        have hwmem : w ∈ st.users := List.mem_of_find?_eq_some hw
        have hsome : (st.users.find? (fun v => v.mongoId == w.mongoId)).isSome := by
          rw [List.find?_isSome]
          exact ⟨w, hwmem, by simp⟩
        rcases Option.isSome_iff_exists.1 hsome with ⟨x, hx⟩
        have hq : ∀ a ∈ st.users, (a.clerkId == d.id) = false := by
          intro a ha
          simpa using List.find?_eq_none.1 hu a ha
        have hfind : findByClerkId d.id
            (appendLogIf logOk w.mongoId "user.relinked" (sourceMeta d.id w.email) now
              { st with
                users := updateFirst (fun v => v.mongoId == w.mongoId) (relinkUpdate d.id now) st.users }) =
            some (relinkUpdate d.id now x) := by
          show (updateFirst (fun v => v.mongoId == w.mongoId) (relinkUpdate d.id now)
              st.users).find? (fun v => v.clerkId == d.id) = _
          exact find?_updateFirst_other _ _ _ _ x hx hq (by simp [relinkUpdate])
        exact handleUserCreated_of_active logOk2 now2 hpe hfind
          (by simp [relinkUpdate])
      | none =>
        rw [handleUserCreated_of_create logOk now hpe hu hw] at h
        obtain rfl := Except.ok.inj h
        have hnone : st.users.find? (fun v => v.clerkId == d.id) = none := hu
        have hfind : findByClerkId d.id
            (appendLogIf logOk st.nextId "user.created"
              (sourceMeta d.id pe.email_address) now
              (createUser (newUserOf d pe now st.nextId) st)) =
            some (newUserOf d pe now st.nextId) := by
          show (st.users ++ [newUserOf d pe now st.nextId]).find?
              (fun v => v.clerkId == d.id) = _
          exact find?_append_fresh _ _ _ hnone (by simp [newUserOf])
        exact handleUserCreated_of_active logOk2 now2 hpe hfind
          (by simp [newUserOf])

/-- Witness for C1: processing the spec's scenario creation event on the
empty store succeeds, and replaying it on the resulting store is a no-op. -/
theorem creation_replay_idempotent_witness :
    handleUserCreated true 2 createEventA dbAfterCreateA = .ok dbAfterCreateA :=
  creation_replay_idempotent true true 1 2 createEventA emptyDB dbAfterCreateA rfl

/-- C10: a creation event whose identity id matches an existing User with
status `banned` or `suspended` is a complete no-op: only status `inactive`
triggers reactivation, so the handler changes no User field, writes no
activity-log entry, and returns success with the state unchanged. -/
theorem creation_on_banned_or_suspended_noop (logOk : Bool) (now : Nat)
    (d : EventData) (st : DBState) (pe : EmailAddress) (u : User)
    (hpe : resolvePrimaryEmail d = some pe)
    (hu : findByClerkId d.id st = some u)
    (hs : u.status = "banned" ∨ u.status = "suspended") :
    handleUserCreated logOk now d st = .ok st :=
  handleUserCreated_of_active logOk now hpe hu
    (by rcases hs with h | h <;> simp [h])

/-- Witness for C10: replaying `c1`'s creation on a store where `c1` is
banned leaves the store untouched and succeeds. -/
theorem creation_on_banned_or_suspended_noop_witness :
    handleUserCreated true 9 replayC1Event bannedDB = .ok bannedDB :=
  creation_on_banned_or_suspended_noop true 9 replayC1Event bannedDB emailA
    { userC1 with status := "banned" } rfl rfl (Or.inl rfl)

/-- C2: for every state containing a User with the event's identity id,
a deletion event followed by a creation event with that id soft-deletes and
then reactivates that same document: the second call flips its status
(which the deletion set to `inactive`) back to `active`, bumps `updatedAt`
to the creation-processing time, appends exactly one `user.reactivated`
log entry (when the log write succeeds, none otherwise), and the number of
User documents after the pair equals the number before. -/
theorem delete_then_create_reactivates (logOk logOk2 : Bool) (now now2 : Nat)
    (d dd : EventData) (st : DBState) (pe : EmailAddress) (u : User)
    (hdd : dd.id = d.id)
    (hpe : resolvePrimaryEmail d = some pe)
    (hu : findByClerkId d.id st = some u) :
    ∃ st1 st2,
      handleUserDeleted logOk now dd st = .ok st1 ∧
      handleUserCreated logOk2 now2 d st1 = .ok st2 ∧
      st2.users.length = st.users.length ∧
      findByClerkId d.id st2 =
        some (reactivateUpdate now2 (softDeleteUpdate now u)) ∧
      (reactivateUpdate now2 (softDeleteUpdate now u)).status = "active" ∧
      (reactivateUpdate now2 (softDeleteUpdate now u)).updatedAt = now2 ∧
      st2.logs = st1.logs ++
        (if logOk2 then
          [mkLogEntry u.mongoId "user.reactivated" (sourceMeta d.id u.email) now2]
         else []) := by
  have hu' : findByClerkId dd.id st = some u := by rw [hdd]; exact hu
  have hdel := handleUserDeleted_of_found logOk now hu'
  rw [hdd] at hdel
  have hfind1 : findByClerkId d.id
      (appendLogIf logOk u.mongoId "user.deleted" (sourceMeta d.id u.email) now
        { st with
          users := updateFirst (fun v => v.clerkId == d.id) (softDeleteUpdate now) st.users }) =
      some (softDeleteUpdate now u) := by
    show (updateFirst (fun v => v.clerkId == d.id) (softDeleteUpdate now)
        st.users).find? (fun v => v.clerkId == d.id) = _
    rw [find?_updateFirst_map (fun v => v.clerkId == d.id)
      (softDeleteUpdate now) st.users (fun a ha => ha)]
    rw [show st.users.find? (fun v => v.clerkId == d.id) = some u from hu]
    rfl
  have hcre := handleUserCreated_of_inactive logOk2 now2 hpe hfind1 rfl
  refine ⟨_, _, hdel, hcre, ?_, ?_, rfl, rfl, ?_⟩
  · simp [appendLogIf, updateFirst_length]
  · show (updateFirst (fun v => v.clerkId == d.id) (reactivateUpdate now2)
        (updateFirst (fun v => v.clerkId == d.id) (softDeleteUpdate now)
          st.users)).find? (fun v => v.clerkId == d.id) = _
    rw [find?_updateFirst_map (fun v => v.clerkId == d.id)
      (reactivateUpdate now2) _ (fun a ha => ha)]
    rw [find?_updateFirst_map (fun v => v.clerkId == d.id)
      (softDeleteUpdate now) st.users (fun a ha => ha)]
    rw [show st.users.find? (fun v => v.clerkId == d.id) = some u from hu]
    rfl
  · simp [appendLogIf, softDeleteUpdate]

/-- Witness for C2: deleting then recreating `idp_1` on the store produced
by the spec's scenario creation event reactivates the one stored document. -/
theorem delete_then_create_reactivates_witness :
    ∃ st1 st2,
      handleUserDeleted true 2 deleteEventA dbAfterCreateA = .ok st1 ∧
      handleUserCreated true 3 createEventA st1 = .ok st2 ∧
      st2.users.length = dbAfterCreateA.users.length ∧
      findByClerkId createEventA.id st2 =
        some (reactivateUpdate 3 (softDeleteUpdate 2 userIdp1)) ∧
      (reactivateUpdate 3 (softDeleteUpdate 2 userIdp1)).status = "active" ∧
      (reactivateUpdate 3 (softDeleteUpdate 2 userIdp1)).updatedAt = 3 ∧
      st2.logs = st1.logs ++
        (if true then
          [mkLogEntry userIdp1.mongoId "user.reactivated"
            (sourceMeta createEventA.id userIdp1.email) 3]
         else []) :=
  delete_then_create_reactivates true true 2 3 createEventA deleteEventA
    dbAfterCreateA emailA userIdp1 rfl rfl rfl

/-- C3: a creation event whose identity id matches no User but whose
resolved primary email matches an existing User re-links that document —
the handler overwrites its stored identity id with the event's id and sets
its status to `active` — instead of creating a new one, so the User count
is unchanged; the document keeps its `_id` and email, and a `user.relinked`
entry is logged when the log write succeeds. (The `_id`s of stored
documents are assumed pairwise distinct, as the store guarantees.) -/
theorem creation_relinks_by_email (logOk : Bool) (now : Nat)
    (d : EventData) (st : DBState) (pe : EmailAddress) (w : User)
    (hno : (st.users.map User.mongoId).Nodup)
    (hpe : resolvePrimaryEmail d = some pe)
    (hid : findByClerkId d.id st = none)
    (hw : findByEmail pe.email_address st = some w) :
    ∃ st', handleUserCreated logOk now d st = .ok st' ∧
      st'.users.length = st.users.length ∧
      findByClerkId d.id st' = some (relinkUpdate d.id now w) ∧
      (relinkUpdate d.id now w).clerkId = d.id ∧
      (relinkUpdate d.id now w).status = "active" ∧
      (relinkUpdate d.id now w).mongoId = w.mongoId ∧
      (relinkUpdate d.id now w).email = w.email ∧
      st'.logs = st.logs ++
        (if logOk then
          [mkLogEntry w.mongoId "user.relinked" (sourceMeta d.id w.email) now]
         else []) := by
  have hcre := handleUserCreated_of_relink logOk now hpe hid hw
  have hwmem : w ∈ st.users := List.mem_of_find?_eq_some hw
  have hx : st.users.find? (fun v => v.mongoId == w.mongoId) = some w :=
    find?_eq_self_of_nodup User.mongoId st.users w hwmem hno
  have hq : ∀ a ∈ st.users, (a.clerkId == d.id) = false := by
    intro a ha
    simpa using List.find?_eq_none.1 hid a ha
  refine ⟨_, hcre, ?_, ?_, rfl, rfl, rfl, rfl, ?_⟩
  · simp [appendLogIf, updateFirst_length]
  · show (updateFirst (fun v => v.mongoId == w.mongoId) (relinkUpdate d.id now)
        st.users).find? (fun v => v.clerkId == d.id) = _
    exact find?_updateFirst_other _ _ _ _ w hx hq (by simp [relinkUpdate])
  · simp [appendLogIf]

/-- Witness for C3: after the scenario creation and deletion of `idp_1`, a
creation event carrying `idp_2` with the same email re-links the one stored
document: its clerkId becomes `idp_2`, its status `active`, and the User
count stays 1. -/
theorem creation_relinks_by_email_witness :
    ∃ st', handleUserCreated true 4 createEventB dbAfterDeleteA = .ok st' ∧
      st'.users.length = dbAfterDeleteA.users.length ∧
      findByClerkId createEventB.id st' =
        some (relinkUpdate createEventB.id 4 (softDeleteUpdate 2 userIdp1)) ∧
      (relinkUpdate createEventB.id 4 (softDeleteUpdate 2 userIdp1)).clerkId =
        createEventB.id ∧
      (relinkUpdate createEventB.id 4 (softDeleteUpdate 2 userIdp1)).status =
        "active" ∧
      (relinkUpdate createEventB.id 4 (softDeleteUpdate 2 userIdp1)).mongoId =
        (softDeleteUpdate 2 userIdp1).mongoId ∧
      (relinkUpdate createEventB.id 4 (softDeleteUpdate 2 userIdp1)).email =
        (softDeleteUpdate 2 userIdp1).email ∧
      st'.logs = dbAfterDeleteA.logs ++
        (if true then
          [mkLogEntry (softDeleteUpdate 2 userIdp1).mongoId "user.relinked"
            (sourceMeta createEventB.id (softDeleteUpdate 2 userIdp1).email) 4]
         else []) :=
  creation_relinks_by_email true 4 createEventB dbAfterDeleteA emailA
    (softDeleteUpdate 2 userIdp1) (by decide) rfl rfl rfl

/-- Counterexample to C5 as stated: the claim says the update handler
overwrites EMAIL only when the event supplies a non-empty value and
otherwise retains the stored value. On `dbTwoUsers`, whose user `c1` has
stored email `a@x.com`, the update event `emptyEmailEvent` resolves a
primary email whose address is the empty string — yet the handler
succeeds and stores the empty string, overwriting `a@x.com` instead of
retaining it. -/
theorem update_email_no_fallback_counterexample :
    handleUserUpdated true 5 emptyEmailEvent dbTwoUsers = .ok dbAfterEmptyEmail ∧
    (findByClerkId "c1" dbTwoUsers).map User.email = some "a@x.com" ∧
    (findByClerkId "c1" dbAfterEmptyEmail).map User.email = some "" :=
  ⟨rfl, rfl, rfl⟩

/-- C5 (amended): for an update event whose identity id matches a stored
User, the handler overwrites first name, last name, username and avatar
with the event's value only when that value is non-empty and otherwise
retains the stored value, and sets `updatedAt` from the event's timestamp —
but it overwrites EMAIL unconditionally with the resolved primary email
address, even when that address is empty. When the identity id matches no
User, the update event is processed as a creation event. -/
theorem update_field_fallback (logOk : Bool) (now : Nat) (d : EventData)
    (st : DBState) (pe : EmailAddress) (u : User)
    (hpe : resolvePrimaryEmail d = some pe)
    (hu : findByClerkId d.id st = some u) :
    (∃ st', handleUserUpdated logOk now d st = .ok st' ∧
      findByClerkId d.id st' = some (updateFieldsUpdate d pe u u) ∧
      (updateFieldsUpdate d pe u u).email = pe.email_address ∧
      (updateFieldsUpdate d pe u u).firstName =
        (if d.first_name = "" then u.firstName else d.first_name) ∧
      (updateFieldsUpdate d pe u u).lastName =
        (if d.last_name = "" then u.lastName else d.last_name) ∧
      (updateFieldsUpdate d pe u u).username =
        (if d.username = "" then u.username else some d.username) ∧
      (updateFieldsUpdate d pe u u).avatar =
        (if d.image_url = "" then u.avatar else some d.image_url) ∧
      (updateFieldsUpdate d pe u u).updatedAt = d.updated_at) ∧
    (∀ st0 : DBState, findByClerkId d.id st0 = none →
      handleUserUpdated logOk now d st0 = handleUserCreated logOk now d st0) := by
  constructor
  · have hupd := handleUserUpdated_of_found logOk now hpe hu
    refine ⟨_, hupd, ?_, rfl, ?_, ?_, ?_, ?_, rfl⟩
    · show (updateFirst (fun v => v.clerkId == d.id) (updateFieldsUpdate d pe u)
          st.users).find? (fun v => v.clerkId == d.id) = _
      rw [find?_updateFirst_map (fun v => v.clerkId == d.id)
        (updateFieldsUpdate d pe u) st.users (fun a ha => ha)]
      rw [show st.users.find? (fun v => v.clerkId == d.id) = some u from hu]
      rfl
    · by_cases h : d.first_name = "" <;> simp [updateFieldsUpdate, h]
    · by_cases h : d.last_name = "" <;> simp [updateFieldsUpdate, h]
    · by_cases h : d.username = "" <;> simp [updateFieldsUpdate, h]
    · by_cases h : d.image_url = "" <;> simp [updateFieldsUpdate, h]
  · intro st0 h0
    exact handleUserUpdated_of_none logOk now hpe h0

/-- Witness for C5 (amended): on `dbTwoUsers`, the all-empty-fields update
event for `c1` retains first name `John` but overwrites the email with the
event's empty primary address; and on any store that does not know an id,
the update is processed as a creation. -/
theorem update_field_fallback_witness :
    (∃ st', handleUserUpdated true 5 emptyEmailEvent dbTwoUsers = .ok st' ∧
      findByClerkId emptyEmailEvent.id st' =
        some (updateFieldsUpdate emptyEmailEvent ⟨"e9", ""⟩ userC1 userC1) ∧
      (updateFieldsUpdate emptyEmailEvent ⟨"e9", ""⟩ userC1 userC1).email = "" ∧
      (updateFieldsUpdate emptyEmailEvent ⟨"e9", ""⟩ userC1 userC1).firstName =
        (if emptyEmailEvent.first_name = "" then userC1.firstName
         else emptyEmailEvent.first_name) ∧
      (updateFieldsUpdate emptyEmailEvent ⟨"e9", ""⟩ userC1 userC1).lastName =
        (if emptyEmailEvent.last_name = "" then userC1.lastName
         else emptyEmailEvent.last_name) ∧
      (updateFieldsUpdate emptyEmailEvent ⟨"e9", ""⟩ userC1 userC1).username =
        (if emptyEmailEvent.username = "" then userC1.username
         else some emptyEmailEvent.username) ∧
      (updateFieldsUpdate emptyEmailEvent ⟨"e9", ""⟩ userC1 userC1).avatar =
        (if emptyEmailEvent.image_url = "" then userC1.avatar
         else some emptyEmailEvent.image_url) ∧
      (updateFieldsUpdate emptyEmailEvent ⟨"e9", ""⟩ userC1 userC1).updatedAt =
        emptyEmailEvent.updated_at) ∧
    (∀ st0 : DBState, findByClerkId emptyEmailEvent.id st0 = none →
      handleUserUpdated true 5 emptyEmailEvent st0 =
        handleUserCreated true 5 emptyEmailEvent st0) :=
  update_field_fallback true 5 emptyEmailEvent dbTwoUsers ⟨"e9", ""⟩ userC1 rfl rfl

/-! Preservation of the uniqueness invariants by the individual handlers. -/

theorem created_preserves_clerkId_nodup {logOk : Bool} {now : Nat}
    {d : EventData} {st st' : DBState}
    (h : handleUserCreated logOk now d st = .ok st')
    (hno : (st.users.map User.clerkId).Nodup) :
    (st'.users.map User.clerkId).Nodup := by
  cases hpe : resolvePrimaryEmail d with
  | none => simp [handleUserCreated, hpe] at h
  | some pe =>
    cases hu : findByClerkId d.id st with
    | some u =>
      by_cases hs : u.status = "inactive"
      · rw [handleUserCreated_of_inactive logOk now hpe hu hs] at h
        obtain rfl := Except.ok.inj h
        show ((updateFirst (fun v => v.clerkId == d.id) (reactivateUpdate now)
            st.users).map User.clerkId).Nodup
        rw [map_updateFirst_congr User.clerkId (fun v => v.clerkId == d.id)
          (reactivateUpdate now) (fun a => rfl) st.users]
        exact hno
      · rw [handleUserCreated_of_active logOk now hpe hu hs] at h
        obtain rfl := Except.ok.inj h
        exact hno
    | none =>
      have hfresh : ∀ a ∈ st.users, a.clerkId ≠ d.id := by
        intro a ha
        simpa using List.find?_eq_none.1 hu a ha
      cases hw : findByEmail pe.email_address st with
      | some w =>
        rw [handleUserCreated_of_relink logOk now hpe hu hw] at h
        obtain rfl := Except.ok.inj h
        show ((updateFirst (fun v => v.mongoId == w.mongoId) (relinkUpdate d.id now)
            st.users).map User.clerkId).Nodup
        exact nodup_map_updateFirst_fresh User.clerkId _ _ d.id st.users hno
          (fun a => rfl) hfresh
      | none =>
        rw [handleUserCreated_of_create logOk now hpe hu hw] at h
        obtain rfl := Except.ok.inj h
        show ((st.users ++ [newUserOf d pe now st.nextId]).map User.clerkId).Nodup
        rw [List.map_append, List.nodup_append]
        refine ⟨hno, by simp, ?_⟩
        intro a ha hb
        rcases List.mem_map.1 ha with ⟨z, hz, hgz⟩
        have : a = (newUserOf d pe now st.nextId).clerkId := by simpa using hb
        exact hfresh z hz (hgz ▸ this)

theorem created_preserves_email_nodup {logOk : Bool} {now : Nat}
    {d : EventData} {st st' : DBState}
    (h : handleUserCreated logOk now d st = .ok st')
    (hno : (st.users.map User.email).Nodup) :
    (st'.users.map User.email).Nodup := by
  cases hpe : resolvePrimaryEmail d with
  | none => simp [handleUserCreated, hpe] at h
  | some pe =>
    cases hu : findByClerkId d.id st with
    | some u =>
      by_cases hs : u.status = "inactive"
      · rw [handleUserCreated_of_inactive logOk now hpe hu hs] at h
        obtain rfl := Except.ok.inj h
        show ((updateFirst (fun v => v.clerkId == d.id) (reactivateUpdate now)
            st.users).map User.email).Nodup
        rw [map_updateFirst_congr User.email (fun v => v.clerkId == d.id)
          (reactivateUpdate now) (fun a => rfl) st.users]
        exact hno
      · rw [handleUserCreated_of_active logOk now hpe hu hs] at h
        obtain rfl := Except.ok.inj h
        exact hno
    | none =>
      cases hw : findByEmail pe.email_address st with
      | some w =>
        rw [handleUserCreated_of_relink logOk now hpe hu hw] at h
        obtain rfl := Except.ok.inj h
        show ((updateFirst (fun v => v.mongoId == w.mongoId) (relinkUpdate d.id now)
            st.users).map User.email).Nodup
        rw [map_updateFirst_congr User.email (fun v => v.mongoId == w.mongoId)
          (relinkUpdate d.id now) (fun a => rfl) st.users]
        exact hno
      | none =>
        have hfresh : ∀ a ∈ st.users, a.email ≠ pe.email_address := by
          intro a ha
          simpa using List.find?_eq_none.1 hw a ha
        rw [handleUserCreated_of_create logOk now hpe hu hw] at h
        obtain rfl := Except.ok.inj h
        show ((st.users ++ [newUserOf d pe now st.nextId]).map User.email).Nodup
        rw [List.map_append, List.nodup_append]
        refine ⟨hno, by simp, ?_⟩
        intro a ha hb
        rcases List.mem_map.1 ha with ⟨z, hz, hgz⟩
        have : a = (newUserOf d pe now st.nextId).email := by simpa using hb
        exact hfresh z hz (hgz ▸ this)

theorem deleted_preserves_uniqueness {logOk : Bool} {now : Nat}
    {d : EventData} {st st' : DBState}
    (h : handleUserDeleted logOk now d st = .ok st')
    (hno : usersUnique st) : usersUnique st' := by
  cases hu : findByClerkId d.id st with
  | none =>
    rw [handleUserDeleted_of_none logOk now hu] at h
    obtain rfl := Except.ok.inj h
    exact hno
  | some u =>
    rw [handleUserDeleted_of_found logOk now hu] at h
    obtain rfl := Except.ok.inj h
    constructor
    · show ((updateFirst (fun v => v.clerkId == d.id) (softDeleteUpdate now)
          st.users).map User.clerkId).Nodup
      rw [map_updateFirst_congr User.clerkId (fun v => v.clerkId == d.id)
        (softDeleteUpdate now) (fun a => rfl) st.users]
      exact hno.1
    · show ((updateFirst (fun v => v.clerkId == d.id) (softDeleteUpdate now)
          st.users).map User.email).Nodup
      rw [map_updateFirst_congr User.email (fun v => v.clerkId == d.id)
        (softDeleteUpdate now) (fun a => rfl) st.users]
      exact hno.2

theorem updated_preserves_clerkId_nodup {logOk : Bool} {now : Nat}
    {d : EventData} {st st' : DBState}
    (h : handleUserUpdated logOk now d st = .ok st')
    (hno : (st.users.map User.clerkId).Nodup) :
    (st'.users.map User.clerkId).Nodup := by
  cases hpe : resolvePrimaryEmail d with
  | none => simp [handleUserUpdated, hpe] at h
  | some pe =>
    cases hu : findByClerkId d.id st with
    | none =>
      rw [handleUserUpdated_of_none logOk now hpe hu] at h
      exact created_preserves_clerkId_nodup h hno
    | some u =>
      rw [handleUserUpdated_of_found logOk now hpe hu] at h
      obtain rfl := Except.ok.inj h
      show ((updateFirst (fun v => v.clerkId == d.id) (updateFieldsUpdate d pe u)
          st.users).map User.clerkId).Nodup
      rw [map_updateFirst_congr User.clerkId (fun v => v.clerkId == d.id)
        (updateFieldsUpdate d pe u) (fun a => rfl) st.users]
      exact hno

/-- Counterexample to C4 as stated: the claim says every operation of the
creation/update/deletion handlers preserves both uniqueness invariants.
`dbTwoUsers` satisfies both (users `c1`/`a@x.com` and `c2`/`b@x.com`), yet
the update event `dupEmailEvent` — an update for `c1` whose primary email
is `c2`'s stored email — succeeds and leaves two Users sharing the email
`b@x.com`, violating email uniqueness. -/
theorem uniqueness_invariant_counterexample :
    usersUnique dbTwoUsers ∧
    handleUserUpdated true 5 dupEmailEvent dbTwoUsers = .ok dbAfterDupEmail ∧
    ¬ usersUnique dbAfterDupEmail :=
  ⟨by decide, rfl, by decide⟩

/-- C4 (amended): the creation and deletion handlers preserve both
uniqueness invariants — no two Users share an identity id and no two share
an email — and the update handler preserves identity-id uniqueness; email
uniqueness, however, is not preserved by the update handler (it overwrites
the matched User's email with the event's primary email without checking
for a conflict, see the counterexample). -/
theorem handlers_preserve_uniqueness (logOk : Bool) (now : Nat)
    (d : EventData) (st st' : DBState) :
    (handleUserCreated logOk now d st = .ok st' →
      usersUnique st → usersUnique st') ∧
    (handleUserDeleted logOk now d st = .ok st' →
      usersUnique st → usersUnique st') ∧
    (handleUserUpdated logOk now d st = .ok st' →
      (st.users.map User.clerkId).Nodup → (st'.users.map User.clerkId).Nodup) := by
  refine ⟨fun h hno => ?_, fun h hno => deleted_preserves_uniqueness h hno,
    fun h hno => updated_preserves_clerkId_nodup h hno⟩
  exact ⟨created_preserves_clerkId_nodup h hno.1,
    created_preserves_email_nodup h hno.2⟩

/-- Witness for C4 (amended): concrete runs of the three handlers with the
invariant checked on both sides — a no-op creation replay on `bannedDB`, the
scenario deletion on `dbAfterCreateA`, and the duplicate-email update on
`dbTwoUsers` (which keeps clerkId uniqueness even as it breaks email
uniqueness). -/
theorem handlers_preserve_uniqueness_witness :
    usersUnique bannedDB ∧
    usersUnique dbAfterDeleteA ∧
    (dbAfterDupEmail.users.map User.clerkId).Nodup :=
  ⟨(handlers_preserve_uniqueness true 9 replayC1Event bannedDB bannedDB).1
      rfl (by decide),
   (handlers_preserve_uniqueness true 2 deleteEventA dbAfterCreateA
      dbAfterDeleteA).2.1 rfl (by decide),
   (handlers_preserve_uniqueness true 5 dupEmailEvent dbTwoUsers
      dbAfterDupEmail).2.2 rfl (by decide)⟩

/-! Independence of the non-log outcome from the activity-log write
outcome (the `logOk` oracle). `Except.map DBState.users` keeps both the
success/throw distinction, the error message, and the User collection, so
equality under it says: same outcome and same users, whatever the log
write did. -/

theorem handleUserCreated_log_indep (logOk : Bool) (now : Nat)
    (d : EventData) (st : DBState) :
    (handleUserCreated logOk now d st).map DBState.users =
      (handleUserCreated true now d st).map DBState.users := by
  cases hpe : resolvePrimaryEmail d with
  | none => simp [handleUserCreated, hpe]
  | some pe =>
    cases hu : findByClerkId d.id st with
    | some u =>
      by_cases hs : u.status = "inactive"
      · rw [handleUserCreated_of_inactive logOk now hpe hu hs,
          handleUserCreated_of_inactive true now hpe hu hs]
        rfl
      · rw [handleUserCreated_of_active logOk now hpe hu hs,
          handleUserCreated_of_active true now hpe hu hs]
    | none =>
      cases hw : findByEmail pe.email_address st with
      | some w =>
        rw [handleUserCreated_of_relink logOk now hpe hu hw,
          handleUserCreated_of_relink true now hpe hu hw]
        rfl
      | none =>
        rw [handleUserCreated_of_create logOk now hpe hu hw,
          handleUserCreated_of_create true now hpe hu hw]
        rfl

theorem handleUserUpdated_log_indep (logOk : Bool) (now : Nat)
    (d : EventData) (st : DBState) :
    (handleUserUpdated logOk now d st).map DBState.users =
      (handleUserUpdated true now d st).map DBState.users := by
  cases hpe : resolvePrimaryEmail d with
  | none => simp [handleUserUpdated, hpe]
  | some pe =>
    cases hu : findByClerkId d.id st with
    | none =>
      rw [handleUserUpdated_of_none logOk now hpe hu,
        handleUserUpdated_of_none true now hpe hu]
      exact handleUserCreated_log_indep logOk now d st
    | some u =>
      rw [handleUserUpdated_of_found logOk now hpe hu,
        handleUserUpdated_of_found true now hpe hu]
      rfl

theorem handleUserDeleted_log_indep (logOk : Bool) (now : Nat)
    (d : EventData) (st : DBState) :
    (handleUserDeleted logOk now d st).map DBState.users =
      (handleUserDeleted true now d st).map DBState.users := by
  cases hu : findByClerkId d.id st with
  | none =>
    rw [handleUserDeleted_of_none logOk now hu,
      handleUserDeleted_of_none true now hu]
  | some u =>
    rw [handleUserDeleted_of_found logOk now hu,
      handleUserDeleted_of_found true now hu]
    rfl

theorem handleSessionCreated_log_indep (logOk : Bool) (now : Nat)
    (d : EventData) (st : DBState) :
    (handleSessionCreated logOk now d st).map DBState.users =
      (handleSessionCreated true now d st).map DBState.users := by
  cases hu : findByClerkId d.user_id st with
  | none => simp [handleSessionCreated, hu]
  | some u =>
    simp only [handleSessionCreated, hu, logUserActivity_eq, appendLogIf]
    rfl

theorem handleSessionRemoved_log_indep (logOk : Bool) (now : Nat)
    (d : EventData) (st : DBState) :
    (handleSessionRemoved logOk now d st).map DBState.users =
      (handleSessionRemoved true now d st).map DBState.users := by
  cases hu : findByClerkId d.user_id st with
  | none => simp [handleSessionRemoved, hu]
  | some u =>
    simp only [handleSessionRemoved, hu, logUserActivity_eq, appendLogIf]
    rfl

theorem routeEvent_log_indep (logOk : Bool) (now : Nat)
    (evt : WebhookEvent) (st : DBState) :
    (routeEvent logOk now evt st).map DBState.users =
      (routeEvent true now evt st).map DBState.users := by
  rcases evt with ⟨t, dt⟩
  simp only [routeEvent]
  split
  · exact handleUserCreated_log_indep logOk now dt st
  · exact handleUserUpdated_log_indep logOk now dt st
  · exact handleUserDeleted_log_indep logOk now dt st
  · exact handleSessionCreated_log_indep logOk now dt st
  · exact handleSessionRemoved_log_indep logOk now dt st
  · rfl

theorem handler_log_indep (logOk : Bool) (now : Nat)
    (req : NetlifyRequest) (st : DBState) :
    (handler logOk now req st).1 = (handler true now req st).1 ∧
    ((handler logOk now req st).2).users = ((handler true now req st).2).users := by
  unfold handler
  split
  · exact ⟨rfl, rfl⟩
  · split
    · exact ⟨rfl, rfl⟩
    · split
      · exact ⟨rfl, rfl⟩
      · cases hv : req.verified with
        | none => exact ⟨rfl, rfl⟩
        | some evt =>
          have h := routeEvent_log_indep logOk now evt st
          cases hr : routeEvent logOk now evt st with
          | ok s1 =>
            cases hr2 : routeEvent true now evt st with
            | ok s2 =>
              rw [hr, hr2] at h
              have hus : s1.users = s2.users := by simpa [Except.map] using h
              simp [hr, hr2, hus]
            | error e2 =>
              rw [hr, hr2] at h
              simp [Except.map] at h
          | error e1 =>
            cases hr2 : routeEvent true now evt st with
            | ok s2 =>
              rw [hr, hr2] at h
              simp [Except.map] at h
            | error e2 =>
              rw [hr, hr2] at h
              have he : e1 = e2 := by simpa [Except.map] using h
              simp [hr, hr2, he]

/-- C6: the activity-log write never raises past its caller — for every
input and every outcome of the underlying persistence call (`logOk`),
`logUserActivity` returns normally and leaves the User collection
untouched; consequently the webhook operation that triggered the write
produces the same HTTP response and the same User collection whether the
log write succeeds or fails. -/
theorem activity_log_fire_and_forget (logOk : Bool) (uid : Nat)
    (action : String) (meta : List (String × String)) (now : Nat)
    (st : DBState) (req : NetlifyRequest) :
    (∃ st1, logUserActivity logOk uid action meta now st = .ok st1 ∧
      st1.users = st.users) ∧
    (handler logOk now req st).1 = (handler true now req st).1 ∧
    ((handler logOk now req st).2).users = ((handler true now req st).2).users :=
  ⟨⟨appendLogIf logOk uid action meta now st,
    logUserActivity_eq logOk uid action meta now st, rfl⟩,
   (handler_log_indep logOk now req st).1,
   (handler_log_indep logOk now req st).2⟩

/-- C7: a verified POST request whose event type is none of the five
handled types changes no state and is acknowledged with HTTP 200 and the
success message body — not an error, so the sender is not told to retry. -/
theorem unknown_event_type_acknowledged (logOk : Bool) (now : Nat)
    (req : NetlifyRequest) (st : DBState) (evt : WebhookEvent)
    (hm : req.httpMethod = "POST")
    (hb : falsy req.body = false)
    (h1 : falsy req.svixId = false)
    (h2 : falsy req.svixTimestamp = false)
    (h3 : falsy req.svixSignature = false)
    (hv : req.verified = some evt)
    (ht : evt.type ∉ (["user.created", "user.updated", "user.deleted",
      "session.created", "session.removed"] : List String)) :
    handler logOk now req st =
      ({ statusCode := 200,
         body := "\x7b\"message\":\"Webhook processed successfully\"\x7d" }, st) := by
  have hroute : routeEvent logOk now evt st = .ok st := by
    rcases evt with ⟨t, dt⟩
    simp only [List.mem_cons, List.mem_singleton] at ht
    push_neg at ht
    unfold routeEvent
    split <;> simp_all
  simp [handler, hm, hb, h1, h2, h3, hv, hroute]

/-- Witness for C7: a signed POST carrying an `organization.created` event
is acknowledged with 200 and leaves the empty store empty. -/
theorem unknown_event_type_acknowledged_witness :
    handler true 0 (postRequest ⟨"organization.created", createEventA⟩) emptyDB =
      ({ statusCode := 200,
         body := "\x7b\"message\":\"Webhook processed successfully\"\x7d" }, emptyDB) :=
  unknown_event_type_acknowledged true 0
    (postRequest ⟨"organization.created", createEventA⟩) emptyDB
    ⟨"organization.created", createEventA⟩ rfl rfl rfl rfl rfl rfl (by decide)

/-- C8: the webhook response code follows the spec's table — 405 for a
method other than POST; 400 for a missing (or empty) body, a missing (or
empty) signature header, or failed verification; 500 when the dispatched
handler of a verified request throws; otherwise 200 — and every response
other than 200 leaves the state unchanged (no handler ran, or the throwing
handler's branch threw before mutating). -/
theorem webhook_status_table (logOk : Bool) (now : Nat)
    (req : NetlifyRequest) (st : DBState) :
    (handler logOk now req st).1.statusCode = claimedStatus logOk now req st ∧
    ((handler logOk now req st).1.statusCode ≠ 200 →
      (handler logOk now req st).2 = st) := by
  by_cases hm : req.httpMethod = "POST"
  · by_cases hb : falsy req.body
    · constructor
      · simp [handler, claimedStatus, hm, hb]
      · intro _
        simp [handler, hm, hb]
    · by_cases hs : (falsy req.svixId || falsy req.svixTimestamp ||
        falsy req.svixSignature) = true
      · constructor
        · simp [handler, claimedStatus, hm, hb, hs]
        · intro _
          simp [handler, hm, hb, hs]
      · cases hv : req.verified with
        | none =>
          constructor
          · simp [handler, claimedStatus, hm, hb, hs, hv]
          · intro _
            simp [handler, hm, hb, hs, hv]
        | some evt =>
          cases hr : routeEvent logOk now evt st with
          | ok s1 =>
            constructor
            · simp [handler, claimedStatus, hm, hb, hs, hv, hr]
            · intro hne
              exact absurd (by simp [handler, hm, hb, hs, hv, hr]) hne
          | error e =>
            constructor
            · simp [handler, claimedStatus, hm, hb, hs, hv, hr]
            · intro _
              simp [handler, hm, hb, hs, hv, hr]
  · constructor
    · simp [handler, claimedStatus, hm]
    · intro _
      simp [handler, hm]

/-- Witness for C8: a GET request gets 405 (as the table says) and leaves
the store unchanged. -/
theorem webhook_status_table_witness :
    (handler true 0 methodGetRequest emptyDB).1.statusCode =
      claimedStatus true 0 methodGetRequest emptyDB ∧
    (handler true 0 methodGetRequest emptyDB).2 = emptyDB :=
  ⟨(webhook_status_table true 0 methodGetRequest emptyDB).1,
   (webhook_status_table true 0 methodGetRequest emptyDB).2 (by decide)⟩

/-- C9 (failing input): the claim — and the route's own swagger contract
(`additionalProperties: false`) — says a body containing a field outside
the five declared ones is rejected with a 400 validation error and no
update. The zod `userSchema` is a plain `z.object` without `.strict()`,
so zod STRIPS unknown keys instead of rejecting: on the body
`{"status": "active", "hacker": "x"}` validation succeeds (for every email
validator, which is never consulted), the `PUT` route answers 200, and the
authenticated user's status is updated — the unknown field is silently
dropped rather than causing a rejection. -/
theorem put_unknown_field_not_rejected (emailOk : String → Bool) :
    userSchemaSafeParse emailOk hackerBody =
      .ok { email := none, name := none, role := none, plan := none,
            status := some "active" } ∧
    (putUser (some "user_1") emailOk hackerBody [mongoUser1]).1.statusCode = 200 ∧
    (putUser (some "user_1") emailOk hackerBody [mongoUser1]).2 =
      [{ mongoUser1 with status := "active" }] :=
  ⟨rfl, rfl, rfl⟩

end Boilerplate
